import Mathlib

/-!
Verification of the Beat-the-Box card game engine.

This development shallowly embeds the core logic of the repository:
- `BTBSimulator.py` (`Card`, `calculate_move_probabilities`, `GameState`,
  `SimulatedGame.find_best_move`),
- `project_directory/BTBGamePlayer.py` (`NineBoxGame`, `GameMove`,
  `NineBoxGUI.process_play`, `NineBoxGame.undo_last_move`,
  `NineBoxGame.calculate_probabilities`, `NineBoxGUI.check_play_success`),
- `BTBGameAid.py` (`CustomGameGUI.process_play`),
- `project_directory/BTBOptimizer.py` (`OptimizationResults`,
  `OptimizerGUI.run_optimization`).

Python floats are modelled by `Rat` (all arithmetic in the sources is exact
on small integers, only divisions produce fractions), Python dicts by
insertion-ordered association lists, and GUI-level randomness / user input
by explicit function parameters.
-/

/-- Embeds the `Card` class shared by `BTBSimulator.py` and
`BTBGamePlayer.py`: `value`, `suit`, `is_joker`. -/
structure Card where
  value : Nat
  suit : String
  isJoker : Bool
deriving DecidableEq, Repr

/-- Embeds the `Card.__init__` constructor: `self.value = 14 if value == 1
else value` (Ace = 14). -/
def mkCard (v : Nat) (s : String) (j : Bool := false) : Card :=
  { value := if v = 1 then 14 else v, suit := s, isJoker := j }

/-- The joker as constructed everywhere in the sources: `Card(0, '', True)`. -/
def jokerCard : Card := mkCard 0 "" true

/-- Embeds `Card.__str__`: jokers render as the joker glyph, court cards and
the ace by letter, other cards by their number, followed by the suit. -/
def cardStr (c : Card) : String :=
  if c.isJoker then "🃏"
  else
    (if c.value = 14 then "A"
     else if c.value = 11 then "J"
     else if c.value = 12 then "Q"
     else if c.value = 13 then "K"
     else toString c.value) ++ c.suit

/-- Lookup in an insertion-ordered association list (Python dict read). -/
def dictLookup {κ α : Type} [DecidableEq κ] (d : List (κ × α)) (k : κ) : Option α :=
  match d with
  | [] => none
  | (k', v) :: rest => if k' = k then some v else dictLookup rest k

/-- Python dict assignment `d[k] = v`: update in place if the key exists,
otherwise append (Python dicts preserve insertion order). -/
def pyDictInsert {κ α : Type} [DecidableEq κ] (d : List (κ × α)) (k : κ) (v : α) :
    List (κ × α) :=
  if d.any (fun p => p.1 = k) then
    d.map (fun p => if p.1 = k then (k, v) else p)
  else d ++ [(k, v)]

/-- Python `del d[k]`. -/
def pyDictErase {κ α : Type} [DecidableEq κ] (d : List (κ × α)) (k : κ) :
    List (κ × α) :=
  d.filter (fun p => ¬ p.1 = k)

/-- Python `s.add(x)` on a set modelled as a duplicate-free list. -/
def pySetAdd {α : Type} [DecidableEq α] (l : List α) (a : α) : List α :=
  if a ∈ l then l else l ++ [a]

/-- Python list indexing semantics: a non-negative index reads from the
front, a negative index reads from the back; out of range raises
(modelled as `none`). -/
def pyIdx (n : Nat) (i : Int) : Option Nat :=
  if 0 ≤ i then
    if i < (n : Int) then some i.toNat else none
  else
    if -i ≤ (n : Int) then some (n - (-i).toNat) else none

/-- The four prediction strings passed to the engines:
`higher`, `lower`, `higher_equal`, `lower_equal`. -/
inductive MoveType where
  | higher
  | lower
  | higherEqual
  | lowerEqual
deriving DecidableEq, Repr

/-- Embeds the test `'equal' in move_type` used by
`GameState.execute_move` (true exactly for the two inclusive strings). -/
def MoveType.isIncl : MoveType → Bool
  | .higherEqual => true
  | .lowerEqual => true
  | _ => false

/-- The five percentages returned by the simulator probability function. -/
structure Probs where
  higher : Rat
  lower : Rat
  higher_equal : Rat
  lower_equal : Rat
  exact_match : Rat
deriving DecidableEq, Repr

/-- Embeds `calculate_move_probabilities` from `BTBSimulator.py`: empty deck
gives `{}` (`none`); a joker target gives 100 everywhere; otherwise jokers
count into the higher and lower tallies (but not the equal tally) and every
percentage is divided by the plain deck size. -/
def calculate_move_probabilities (visible_card : Card) (remaining_deck : List Card) :
    Option Probs :=
  if remaining_deck.isEmpty then none
  else if visible_card.isJoker then
    some ⟨100, 100, 100, 100, 100⟩
  else
    let total : Rat := (remaining_deck.length : Rat)
    let joker_count : Rat := ((remaining_deck.countP (fun c => c.isJoker)) : Rat)
    let tv := visible_card.value
    let higher : Rat :=
      ((remaining_deck.countP (fun c => c.isJoker || (!c.isJoker && decide (c.value > tv)))) : Rat)
    let lower : Rat :=
      ((remaining_deck.countP (fun c => c.isJoker || (!c.isJoker && decide (c.value < tv)))) : Rat)
    let equal : Rat :=
      ((remaining_deck.countP (fun c => !c.isJoker && decide (c.value = tv))) : Rat)
    some ⟨(higher / total) * 100,
          (lower / total) * 100,
          ((higher + equal) / total) * 100,
          ((lower + equal) / total) * 100,
          ((equal + joker_count) / total) * 100⟩

/-- The four percentages computed per visible card by the GUI engine. -/
structure GuiProbs where
  higher : Rat
  lower : Rat
  higher_equal : Rat
  lower_equal : Rat
deriving DecidableEq, Repr

/-- Embeds the per-card body of `NineBoxGame.calculate_probabilities` from
`BTBGamePlayer.py`: jokers are added to the higher, lower and equal counts
alike and every percentage is divided by `total + joker_count`.  (In the
source the two inclusive entries are only emitted into the result dict when
`inclusive_choices_remaining > 0`; the arithmetic is identical.) -/
def gui_card_probs (visible_card : Card) (remaining_deck : List Card) :
    Option GuiProbs :=
  let total : Rat := (remaining_deck.length : Rat)
  if remaining_deck.length = 0 then none
  else
    let joker_count : Rat := ((remaining_deck.countP (fun c => c.isJoker)) : Rat)
    let regular := remaining_deck.filter (fun c => !c.isJoker)
    let higher_count : Rat :=
      ((regular.countP (fun c => decide (c.value > visible_card.value))) : Rat) + joker_count
    let lower_count : Rat :=
      ((regular.countP (fun c => decide (c.value < visible_card.value))) : Rat) + joker_count
    let equal_count : Rat :=
      ((regular.countP (fun c => decide (c.value = visible_card.value))) : Rat) + joker_count
    some ⟨(higher_count / (total + joker_count)) * 100,
          (lower_count / (total + joker_count)) * 100,
          ((higher_count + equal_count) / (total + joker_count)) * 100,
          ((lower_count + equal_count) / (total + joker_count)) * 100⟩

/-- Embeds the `GameState` class of `BTBSimulator.py` (the engine driven by
the simulator and the optimizer). -/
structure GameState where
  visible_cards : List (Option Card)
  remaining_deck : List Card
  failed_boxes : List (Nat × Card)
  inclusive_moves_remaining : Int
  inclusive_threshold : Rat
  moves_used : Nat
  inclusive_moves_used : Nat
  jokers_drawn : Nat
deriving DecidableEq, Repr

/-- Embeds `GameState.check_move_success`: a joker on either side is always
a success; otherwise compare the values according to the move type. -/
def check_move_success (move_type : MoveType) (drawn_card target_card : Card) : Bool :=
  if drawn_card.isJoker || target_card.isJoker then true
  else
    match move_type with
    | .higher => decide (drawn_card.value > target_card.value)
    | .lower => decide (drawn_card.value < target_card.value)
    | .higherEqual => decide (drawn_card.value ≥ target_card.value)
    | .lowerEqual => decide (drawn_card.value ≤ target_card.value)

/-- Embeds `GameState.is_exact_match`: true if either card is a joker or the
values coincide. -/
def is_exact_match (card1 card2 : Card) : Bool :=
  if card1.isJoker || card2.isJoker then true
  else decide (card1.value = card2.value)

/-- Embeds `GameState.recover_position`: restore the stored card when the
position is a failed box, report whether anything happened. -/
def recover_position (s : GameState) (position : Nat) : Bool × GameState :=
  match dictLookup s.failed_boxes position with
  | some c =>
      (true, { s with
                visible_cards := s.visible_cards.set position (some c),
                failed_boxes := pyDictErase s.failed_boxes position })
  | none => (false, s)

/-- Embeds `GameState.execute_move`.  The position is an `Int` because
Python list indexing accepts negative indices; `none` models an uncaught
`IndexError` (index below `-9`); otherwise the result is the returned
success flag paired with the post-call state.  Note the source performs no
inclusive-budget check and no negative-position check, and recovery is
applied inline when a `recovery_position` was supplied and the drawn card
is a joker or `is_exact_match` holds. -/
def execute_move (s : GameState) (position : Int) (move_type : MoveType)
    (recovery_position : Option Nat) : Option (Bool × GameState) :=
  if s.remaining_deck.isEmpty || position ≥ (s.visible_cards.length : Int) then
    some (false, s)
  else
    match pyIdx s.visible_cards.length position with
    | none => none
    | some p =>
      match (s.visible_cards.get? p).join with
      | none => some (false, s)
      | some target_card =>
        match s.remaining_deck with
        | [] => none
        | drawn_card :: rest =>
          let s1 : GameState :=
            { s with
                remaining_deck := rest,
                jokers_drawn := s.jokers_drawn + (if drawn_card.isJoker then 1 else 0),
                moves_used := s.moves_used + 1 }
          let is_inclusive := move_type.isIncl
          let s2 : GameState :=
            if is_inclusive then
              { s1 with
                  inclusive_moves_used := s1.inclusive_moves_used + 1,
                  inclusive_moves_remaining := s1.inclusive_moves_remaining - 1 }
            else s1
          let success := check_move_success move_type drawn_card target_card
          if success then
            let s3 : GameState :=
              { s2 with visible_cards := s2.visible_cards.set p (some drawn_card) }
            let s4 : GameState :=
              if is_inclusive then
                match recovery_position with
                | some rp =>
                    if is_exact_match drawn_card target_card || drawn_card.isJoker then
                      (recover_position s3 rp).2
                    else s3
                | none => s3
              else s3
            some (true, s4)
          else
            some (false,
              { s2 with
                  failed_boxes := pyDictInsert s2.failed_boxes p target_card,
                  visible_cards := s2.visible_cards.set p none })

/-- Embeds `GameState.is_game_over`: all slots empty or deck exhausted. -/
def is_game_over (s : GameState) : Bool :=
  s.visible_cards.all (fun c => c.isNone) || s.remaining_deck.isEmpty

/-- Embeds `GameState.has_won`: deck exhausted with one active slot left. -/
def has_won (s : GameState) : Bool :=
  s.remaining_deck.isEmpty && s.visible_cards.any (fun c => c.isSome)

/-- Reads the entry of the simulator probability dict selected by a plain
or inclusive move string. -/
def Probs.ofMove (p : Probs) : MoveType → Rat
  | .higher => p.higher
  | .lower => p.lower
  | .higherEqual => p.higher_equal
  | .lowerEqual => p.lower_equal

/-- Python `max(self.game_state.failed_boxes.keys())`, evaluated only on a
non-empty dict in the source; folded from 0 here (keys are non-negative). -/
def maxKey (fb : List (Nat × Card)) : Nat :=
  fb.foldl (fun m p => max m p.1) 0

/-- A candidate move as produced by `SimulatedGame.find_best_move`:
position, move type, optional pre-selected recovery position. -/
abbrev BestCandidate := Nat × MoveType × Option Nat

/-- One `probs[move_type] > best_prob` update of the plain-move loop of
`SimulatedGame.find_best_move`. -/
def plain_step (pos : Nat) (probs : Probs) (mt : MoveType)
    (acc : Rat × Option BestCandidate) : Rat × Option BestCandidate :=
  if probs.ofMove mt > acc.1 then (probs.ofMove mt, some (pos, mt, none)) else acc

/-- One iteration of the inclusive-move loop of
`SimulatedGame.find_best_move`: adopt the move when its probability beats
the running best by more than the threshold, or strictly beats it with an
exact-match probability above 20; in that case pre-select
`max(failed_boxes.keys())` as recovery position when there are failed boxes
and the exact-match probability is above 20. -/
def inclusive_step (threshold : Rat) (failed_boxes : List (Nat × Card))
    (pos : Nat) (probs : Probs) (mt : MoveType)
    (acc : Rat × Option BestCandidate) : Rat × Option BestCandidate :=
  let current_prob := probs.ofMove mt
  let should_use_inclusive :=
    current_prob > acc.1 + threshold ∨
      (current_prob > acc.1 ∧ probs.exact_match > 20)
  if should_use_inclusive then
    let recovery_pos : Option Nat :=
      if ¬ failed_boxes = [] ∧ probs.exact_match > 20 then
        some (maxKey failed_boxes)
      else none
    (current_prob, some (pos, mt, recovery_pos))
  else acc

/-- The body of the position loop of `SimulatedGame.find_best_move`: skip
failed slots and empty probability dicts, try the plain moves, then the
inclusive moves when budget remains. -/
def position_step (gs : GameState) (acc : Rat × Option BestCandidate)
    (pc : Nat × Option Card) : Rat × Option BestCandidate :=
  match pc.2 with
  | none => acc
  | some card =>
    match calculate_move_probabilities card gs.remaining_deck with
    | none => acc
    | some probs =>
      let acc1 := plain_step pc.1 probs .lower (plain_step pc.1 probs .higher acc)
      if gs.inclusive_moves_remaining > 0 then
        inclusive_step gs.inclusive_threshold gs.failed_boxes pc.1 probs .lowerEqual
          (inclusive_step gs.inclusive_threshold gs.failed_boxes pc.1 probs .higherEqual acc1)
      else acc1

/-- Embeds `SimulatedGame.find_best_move`: fold the position loop over the
enumerated visible cards, starting from `best_prob = -1.0`. -/
def find_best_move (gs : GameState) : Option BestCandidate :=
  (gs.visible_cards.enum.foldl (position_step gs) (-1, none)).2

/-- Embeds the `GameMove` undo record of `BTBGamePlayer.py` (the three
card-counting totals of the GUI session are stored alongside). -/
structure GameMove where
  drawn_card : Option Card
  position : Nat
  old_card : Option Card
  used_inclusive : Bool
  failed_boxes : List (Nat × Card)
  inclusive_moves_remaining : Int
  count1 : Int
  count2 : Int
  count3 : Int
deriving DecidableEq, Repr

/-- Embeds the engine-relevant state of the `NineBoxGame` class of
`BTBGamePlayer.py` (the GUI engine, also used by `BTBGameAid.py`). -/
structure NineBoxGame where
  visible_cards : List (Option Card)
  remaining_deck : List Card
  move_history : List GameMove
  inclusive_choices_remaining : Int
  failed_boxes : List (Nat × Card)
deriving DecidableEq, Repr

/-- Embeds `NineBoxGame.compare_cards`: a joker drawn card reports
`equal`; otherwise the playing values are compared (a joker target is not
special-cased and compares through its stored value 0). -/
def compare_cards (card1 card2 : Card) : String :=
  if card1.isJoker then "equal"
  else if card1.value = card2.value then "equal"
  else if card1.value > card2.value then "higher"
  else "lower"

/-- Embeds `NineBoxGUI.check_play_success`: a drawn joker always succeeds;
otherwise compare playing values according to the player's choice. -/
def check_play_success (drawn_card target_card : Card) (player_choice : MoveType) : Bool :=
  if drawn_card.isJoker then true
  else
    match player_choice with
    | .higher => decide (drawn_card.value > target_card.value)
    | .lower => decide (drawn_card.value < target_card.value)
    | .higherEqual => decide (drawn_card.value ≥ target_card.value)
    | .lowerEqual => decide (drawn_card.value ≤ target_card.value)

/-- Embeds the engine-mutating part of `NineBoxGUI.process_play` flowing
into `NineBoxGame`: save the pre-move inclusive count, consume one
inclusive choice (rejecting the play when none remain), peek the top card,
push a `GameMove`, then resolve the play (joker auto-success path first)
and pop the deck.  `c1 c2 c3` are the GUI counting totals recorded in the
snapshot.  `none` models the uncaught attribute error Python would raise
when the targeted slot is empty and the drawn card is not a joker; every
early `return` of the source yields the state reached at that point.
The non-blocking recovery dialog opened on eligible plays mutates nothing
at `process_play` time and is modelled separately. -/
def process_play (g : NineBoxGame) (position : Nat) (player_choice : MoveType)
    (c1 c2 c3 : Int) : Option NineBoxGame :=
  let inclusive_at_start := g.inclusive_choices_remaining
  let used_inclusive := player_choice.isIncl
  if used_inclusive && !(decide (g.inclusive_choices_remaining > 0)) then some g
  else
    let g1 : NineBoxGame :=
      if used_inclusive then
        { g with inclusive_choices_remaining := g.inclusive_choices_remaining - 1 }
      else g
    match g1.remaining_deck with
    | [] => some g1
    | drawn_card :: rest =>
      match g1.visible_cards.get? position with
      | none => none
      | some old_card =>
        let mv : GameMove :=
          { drawn_card := some drawn_card, position := position, old_card := old_card,
            used_inclusive := used_inclusive, failed_boxes := g1.failed_boxes,
            inclusive_moves_remaining := inclusive_at_start,
            count1 := c1, count2 := c2, count3 := c3 }
        let g2 : NineBoxGame := { g1 with move_history := g1.move_history ++ [mv] }
        if drawn_card.isJoker then
          some { g2 with
                  visible_cards := g2.visible_cards.set position (some drawn_card),
                  remaining_deck := rest }
        else
          match old_card with
          | none => none
          | some target_card =>
            if target_card.isJoker then
              some { g2 with
                      visible_cards := g2.visible_cards.set position (some drawn_card),
                      remaining_deck := rest }
            else
              if check_play_success drawn_card target_card player_choice then
                some { g2 with
                        visible_cards := g2.visible_cards.set position (some drawn_card),
                        remaining_deck := rest }
              else
                some { g2 with
                        failed_boxes := pyDictInsert g2.failed_boxes position target_card,
                        visible_cards := g2.visible_cards.set position none,
                        remaining_deck := rest }

/-- Embeds `NineBoxGame.undo_last_move`: pop the last move, restore the
slot, replace the failed boxes wholesale, push the drawn card (a fresh
`Card(0, '', True)` when it was a joker) back on the front of the deck, and
restore the inclusive counter.  `none` models the `return False` on an
empty history. -/
def undo_last_move (g : NineBoxGame) : Option NineBoxGame :=
  match g.move_history.getLast? with
  | none => none
  | some last_move =>
    let g1 : NineBoxGame := { g with move_history := g.move_history.dropLast }
    let g2 : NineBoxGame :=
      { g1 with visible_cards := g1.visible_cards.set last_move.position last_move.old_card }
    let g3 : NineBoxGame := { g2 with failed_boxes := last_move.failed_boxes }
    let g4 : NineBoxGame :=
      match last_move.drawn_card with
      | some dc =>
          { g3 with
              remaining_deck :=
                (if dc.isJoker then jokerCard else dc) :: g3.remaining_deck }
      | none => g3
    some { g4 with inclusive_choices_remaining := last_move.inclusive_moves_remaining }

/-- Embeds the `is_correct` resolution of `CustomGameGUI.process_play` in
`BTBGameAid.py`, which classifies from `compare_cards` output alone (no
joker special case of its own). -/
def custom_is_correct (player_choice : MoveType) (actual_result : String) : Bool :=
  if player_choice.isIncl then
    (player_choice = MoveType.higherEqual &&
        (actual_result = "higher" || actual_result = "equal")) ||
      (player_choice = MoveType.lowerEqual &&
        (actual_result = "lower" || actual_result = "equal"))
  else
    match player_choice with
    | .higher => actual_result = "higher"
    | .lower => actual_result = "lower"
    | _ => false

/-- Embeds the engine-mutating part of `CustomGameGUI.process_play` from
`BTBGameAid.py`: the drawn card is chosen by the player (not popped from
the deck front), a `GameMove` is pushed, the play resolves via
`custom_is_correct` over `compare_cards`, and the remaining deck is
filtered by string inequality with the drawn card.  The inclusive-choice
decrement happens earlier (in the choice dialog) and is not part of this
call; `none` models the index error on an invalid position. -/
def custom_process_play (g : NineBoxGame) (position : Nat)
    (player_choice : MoveType) (drawn_card target_card : Card)
    (c1 c2 c3 : Int) : Option NineBoxGame :=
  let actual_result := compare_cards drawn_card target_card
  let used_inclusive := player_choice.isIncl
  let is_correct := custom_is_correct player_choice actual_result
  match g.visible_cards.get? position with
  | none => none
  | some old_card =>
    let mv : GameMove :=
      { drawn_card := some drawn_card, position := position, old_card := old_card,
        used_inclusive := used_inclusive, failed_boxes := g.failed_boxes,
        inclusive_moves_remaining := g.inclusive_choices_remaining,
        count1 := c1, count2 := c2, count3 := c3 }
    let g1 : NineBoxGame := { g with move_history := g.move_history ++ [mv] }
    let g2 : NineBoxGame :=
      if is_correct then
        { g1 with visible_cards := g1.visible_cards.set position (some drawn_card) }
      else
        { g1 with
            failed_boxes := pyDictInsert g1.failed_boxes position target_card,
            visible_cards := g1.visible_cards.set position none }
    some { g2 with
            remaining_deck :=
              g2.remaining_deck.filter (fun c => ¬ cardStr c = cardStr drawn_card) }

/-- Embeds the `SimulationResults` dataclass of `BTBSimulator.py`. -/
structure SimulationResults where
  total_games : Nat
  wins : Nat
  losses : Nat
  boxes_left_in_wins : List Nat
  cards_left_in_losses : List Nat
  moves_per_game : List Nat
  inclusive_moves_used : List Nat
  jokers_drawn : List Nat
deriving DecidableEq, Repr

/-- Embeds the `OptimizationResults` class of `BTBOptimizer.py`: the result
dict keyed by `(jokers, moves, threshold)`, the three parameter sets, and
the running best. -/
structure OptimizationResults where
  results : List ((Nat × Nat × Rat) × SimulationResults)
  jokers_space : List Nat
  moves_space : List Nat
  thresholds_space : List Rat
  best_params : Option (Nat × Nat × Rat)
  best_win_rate : Rat
deriving DecidableEq, Repr

/-- `OptimizationResults.__init__`. -/
def initOptimizationResults : OptimizationResults :=
  { results := [], jokers_space := [], moves_space := [], thresholds_space := [],
    best_params := none, best_win_rate := 0 }

/-- The win-rate expression of `OptimizationResults.add_result`:
`result.wins / result.total_games * 100`. -/
def winRate (r : SimulationResults) : Rat :=
  (r.wins : Rat) / (r.total_games : Rat) * 100

/-- Embeds `OptimizationResults.add_result`: record the result under its
triple, extend the parameter space, and promote the running best when the
new win rate strictly exceeds it. -/
def add_result (o : OptimizationResults) (jokers moves : Nat) (threshold : Rat)
    (result : SimulationResults) : OptimizationResults :=
  let o1 : OptimizationResults :=
    { o with
        results := pyDictInsert o.results (jokers, moves, threshold) result,
        jokers_space := pySetAdd o.jokers_space jokers,
        moves_space := pySetAdd o.moves_space moves,
        thresholds_space := pySetAdd o.thresholds_space threshold }
  if winRate result > o1.best_win_rate then
    { o1 with best_win_rate := winRate result,
              best_params := some (jokers, moves, threshold) }
  else o1

/-- The inner trial loop of `OptimizerGUI.run_optimization` for one grid
cell: play `sim_count` independent games, counting wins and summing the
drawn jokers.  A game's random outcome is abstracted as the oracle
`trial : Nat -> Bool × Nat` giving each trial's win flag and joker count
(the other statistics lists are passed empty by the source). -/
def run_one_cell (trial : Nat → Bool × Nat) (sim_count : Nat) : SimulationResults :=
  let outcomes := (List.range sim_count).map trial
  let wins := outcomes.countP (fun t => t.1)
  { total_games := sim_count, wins := wins, losses := sim_count - wins,
    boxes_left_in_wins := [], cards_left_in_losses := [], moves_per_game := [],
    inclusive_moves_used := [], jokers_drawn := [(outcomes.map (fun t => t.2)).sum] }

/-- Embeds the grid loop of `OptimizerGUI.run_optimization`: enumerate the
parameter combinations, skip any cell with `moves > 43 + jokers`, and feed
every other cell's batch into `add_result`.  The parameter product is
passed as an explicit list, and the per-game randomness as a per-cell
oracle. -/
def run_optimization (trial : Nat × Nat × Rat → Nat → Bool × Nat)
    (sim_count : Nat) (combos : List (Nat × Nat × Rat)) : OptimizationResults :=
  combos.foldl
    (fun o c =>
      if c.2.1 > 43 + c.1 then o
      else add_result o c.1 c.2.1 c.2.2 (run_one_cell (trial c) sim_count))
    initOptimizationResults

/-- The cell body of the grid loop of `run_optimization`, named for the
proofs below; `run_optimization` is definitionally this fold. -/
def opt_step (trial : Nat × Nat × Rat → Nat → Bool × Nat) (sim_count : Nat) :
    OptimizationResults → (Nat × Nat × Rat) → OptimizationResults :=
  fun o c =>
    if c.2.1 > 43 + c.1 then o
    else add_result o c.1 c.2.1 c.2.2 (run_one_cell (trial c) sim_count)

/-- The soundness predicate carried along the `find_best_move` fold: any
candidate holding a pre-selected recovery position came from an inclusive
consideration with positive budget, non-empty failed boxes, an exact-match
probability above 20, and picked `max(failed_boxes.keys())`. -/
def RecoverySound (gs : GameState) (acc : Rat × Option BestCandidate) : Prop :=
  ∀ pos mt r, acc.2 = some (pos, mt, some r) →
    mt.isIncl = true ∧ gs.inclusive_moves_remaining > 0 ∧
    ¬ gs.failed_boxes = [] ∧ r = maxKey gs.failed_boxes ∧
    (∃ card probs, gs.visible_cards.get? pos = some (some card) ∧
      calculate_move_probabilities card gs.remaining_deck = some probs ∧
      probs.exact_match > 20)

theorem dictLookup_some_lt {d : List (Nat × Card)} {k : Nat} {c : Card}
    (h : dictLookup d k = some c) : ∃ p ∈ d, p.1 = k := by
  induction d with
  | nil => simp [dictLookup] at h
  | cons hd tl ih =>
    by_cases hk : hd.1 = k
    · exact ⟨hd, List.mem_cons_self _ _, hk⟩
    · rw [show dictLookup (hd :: tl) k = dictLookup tl k by
        obtain ⟨a, b⟩ := hd
        simp only [dictLookup]
        simp at hk
        simp [hk]] at h
      obtain ⟨p, hp, hpk⟩ := ih h
      exact ⟨p, List.mem_cons_of_mem _ hp, hpk⟩

theorem dictLookup_pyDictErase_self {κ α : Type} [DecidableEq κ]
    (d : List (κ × α)) (k : κ) : dictLookup (pyDictErase d k) k = none := by
  induction d with
  | nil => rfl
  | cons hd tl ih =>
    obtain ⟨a, b⟩ := hd
    by_cases hk : a = k
    · simpa [pyDictErase, hk] using ih
    · simpa [pyDictErase, hk, dictLookup] using ih

theorem dictLookup_map_update {κ α : Type} [DecidableEq κ]
    (d : List (κ × α)) (k : κ) (v : α) (hex : ∃ p ∈ d, p.1 = k) :
    dictLookup (d.map (fun p => if p.1 = k then (k, v) else p)) k = some v := by
  induction d with
  | nil => simp at hex
  | cons hd tl ih =>
    obtain ⟨a, b⟩ := hd
    by_cases hk : a = k
    · simp only [List.map_cons]
      rw [if_pos (by simpa using hk)]
      simp [dictLookup]
    · simp only [List.map_cons]
      rw [if_neg (by simpa using hk)]
      simp only [dictLookup, if_neg hk]
      apply ih
      obtain ⟨p, hp, hpk⟩ := hex
      rcases List.mem_cons.1 hp with h1 | h1
      · exfalso
        apply hk
        rw [h1] at hpk
        exact hpk
      · exact ⟨p, h1, hpk⟩

theorem dictLookup_map_update_ne {κ α : Type} [DecidableEq κ]
    (d : List (κ × α)) (k k' : κ) (v : α) (h : ¬ k' = k) :
    dictLookup (d.map (fun p => if p.1 = k then (k, v) else p)) k' = dictLookup d k' := by
  induction d with
  | nil => rfl
  | cons hd tl ih =>
    obtain ⟨a, b⟩ := hd
    by_cases hk : a = k
    · subst hk
      simp only [List.map_cons]
      rw [if_pos (by simp)]
      simp only [dictLookup]
      rw [if_neg (fun hc => h hc.symm), if_neg (fun hc => h hc.symm)]
      exact ih
    · simp only [List.map_cons]
      rw [if_neg (by simpa using hk)]
      by_cases hk' : a = k'
      · simp [dictLookup, hk']
      · simp only [dictLookup, if_neg hk']
        exact ih

theorem dictLookup_append_single {κ α : Type} [DecidableEq κ]
    (d : List (κ × α)) (k : κ) (v : α) (hall : ∀ p ∈ d, ¬ p.1 = k) :
    dictLookup (d ++ [(k, v)]) k = some v := by
  induction d with
  | nil => simp [dictLookup]
  | cons hd tl ih =>
    obtain ⟨a, b⟩ := hd
    have ha : ¬ a = k := by simpa using hall (a, b) (List.mem_cons_self _ _)
    simp only [List.cons_append, dictLookup, if_neg ha]
    exact ih (fun p hp => hall p (List.mem_cons_of_mem _ hp))

theorem dictLookup_append_single_ne {κ α : Type} [DecidableEq κ]
    (d : List (κ × α)) (k k' : κ) (v : α) (h : ¬ k' = k) :
    dictLookup (d ++ [(k, v)]) k' = dictLookup d k' := by
  induction d with
  | nil =>
    simp only [List.nil_append, dictLookup]
    rw [if_neg (fun hc => h hc.symm)]
  | cons hd tl ih =>
    obtain ⟨a, b⟩ := hd
    by_cases hk' : a = k'
    · simp [dictLookup, hk']
    · simp only [List.cons_append, dictLookup, if_neg hk']
      exact ih

theorem dictLookup_pyDictInsert_self {κ α : Type} [DecidableEq κ]
    (d : List (κ × α)) (k : κ) (v : α) :
    dictLookup (pyDictInsert d k v) k = some v := by
  by_cases hmem : (d.any (fun p => p.1 = k)) = true
  · rw [pyDictInsert, if_pos hmem]
    apply dictLookup_map_update
    simpa using hmem
  · rw [pyDictInsert, if_neg hmem]
    apply dictLookup_append_single
    simp only [List.any_eq_true, decide_eq_true_eq, not_exists] at hmem
    intro p hp hpk
    exact hmem p ⟨hp, hpk⟩

theorem dictLookup_pyDictInsert_ne {κ α : Type} [DecidableEq κ]
    (d : List (κ × α)) (k k' : κ) (v : α) (h : ¬ k' = k) :
    dictLookup (pyDictInsert d k v) k' = dictLookup d k' := by
  by_cases hmem : (d.any (fun p => p.1 = k)) = true
  · rw [pyDictInsert, if_pos hmem]
    exact dictLookup_map_update_ne d k k' v h
  · rw [pyDictInsert, if_neg hmem]
    exact dictLookup_append_single_ne d k k' v h

theorem list_set_get_self {α : Type} (l : List α) (p : Nat) (a : α)
    (h : l.get? p = some a) : l.set p a = l := by
  induction l generalizing p with
  | nil => simp at h
  | cons x xs ih =>
    cases p with
    | zero =>
      simp only [List.get?] at h
      injection h with h
      simp [h]
    | succ n =>
      simp only [List.get?] at h
      simp [ih n h]

theorem get_some_lt_length {α : Type} {l : List α} {q : Nat} {a : α}
    (h : l.get? q = some a) : q < l.length := by
  by_contra hc
  rw [List.get?_eq_none.2 (le_of_not_lt hc)] at h
  cases h

theorem pyIdx_coe (n q : Nat) (h : q < n) : pyIdx n (q : Int) = some q := by
  have h' : (q : Int) < (n : Int) := by exact_mod_cast h
  simp [pyIdx, Int.natCast_nonneg, h']

/-- Unfolds `execute_move` on the normal path: non-empty deck and a valid,
occupied position. -/
theorem execute_move_normal (s : GameState) (drawn : Card) (rest : List Card)
    (q : Nat) (target : Card) (mt : MoveType) (rp : Option Nat)
    (hdeck : s.remaining_deck = drawn :: rest)
    (hq : s.visible_cards.get? q = some (some target)) :
    execute_move s (q : Int) mt rp =
      (let s1 : GameState :=
        { s with
            remaining_deck := rest,
            jokers_drawn := s.jokers_drawn + (if drawn.isJoker then 1 else 0),
            moves_used := s.moves_used + 1 }
       let s2 : GameState :=
        if mt.isIncl then
          { s1 with
              inclusive_moves_used := s1.inclusive_moves_used + 1,
              inclusive_moves_remaining := s1.inclusive_moves_remaining - 1 }
        else s1
       if check_move_success mt drawn target then
         let s3 : GameState :=
           { s2 with visible_cards := s2.visible_cards.set q (some drawn) }
         some (true,
           if mt.isIncl then
             match rp with
             | some rpos =>
                 if is_exact_match drawn target || drawn.isJoker then
                   (recover_position s3 rpos).2
                 else s3
             | none => s3
           else s3)
       else
         some (false,
           { s2 with
               failed_boxes := pyDictInsert s2.failed_boxes q target,
               visible_cards := s2.visible_cards.set q none })) := by
  have hlen : q < s.visible_cards.length := get_some_lt_length hq
  have hg : ¬ ((q : Int) ≥ (s.visible_cards.length : Int)) := by
    rw [not_le]
    exact_mod_cast hlen
  have hidx : pyIdx s.visible_cards.length (q : Int) = some q := pyIdx_coe _ _ hlen
  simp only [execute_move, hdeck, List.isEmpty_cons, hidx, hq, Option.join,
    decide_eq_true_eq, Bool.false_or, if_neg hg, decide_eq_false hg]
  rfl

theorem recover_position_inclusive (s : GameState) (p : Nat) :
    (recover_position s p).2.inclusive_moves_remaining = s.inclusive_moves_remaining := by
  unfold recover_position
  cases dictLookup s.failed_boxes p <;> rfl

theorem recover_position_found (s : GameState) (p : Nat) (c : Card)
    (h : dictLookup s.failed_boxes p = some c) :
    (recover_position s p).2 =
      { s with
          visible_cards := s.visible_cards.set p (some c),
          failed_boxes := pyDictErase s.failed_boxes p } := by
  simp [recover_position, h]

theorem exact_or_joker_iff (a b : Card) :
    (is_exact_match a b || a.isJoker) =
      (a.isJoker || b.isJoker || decide (a.value = b.value)) := by
  unfold is_exact_match
  by_cases ha : a.isJoker = true <;> by_cases hb : b.isJoker = true <;>
    simp [ha, hb]

theorem inclusive_exact_success (mt : MoveType) (a b : Card)
    (hmt : mt.isIncl = true)
    (h : (a.isJoker || b.isJoker || decide (a.value = b.value)) = true) :
    check_move_success mt a b = true := by
  unfold check_move_success
  by_cases ha : a.isJoker = true
  · simp [ha]
  · by_cases hb : b.isJoker = true
    · simp [hb]
    · simp only [ha, hb, Bool.false_or, decide_eq_true_eq] at h
      cases mt
      · cases hmt
      · cases hmt
      · simp [ha, hb, h, le_refl]
      · simp [ha, hb, h, le_refl]

/-- C4 counterexample: the simulator `execute_move` applies no
inclusive-budget check — an inclusive move at budget 0 draws the card,
mutates the state, and leaves the budget at -1 rather than failing with
`InsufficientInclusiveBudget` and leaving the state unchanged. -/
theorem C4_counterexample :
    execute_move ⟨[some (mkCard 7 "♠")], [mkCard 9 "♥"], [], 0, 5, 0, 0, 0⟩
        0 .higherEqual none =
      some (true, ⟨[some (mkCard 9 "♥")], [], [], -1, 5, 1, 1, 0⟩) := by
  rfl

/-- C4 (amended): the budget guard lives in the GUI layer only —
`process_play` rejects an inclusive play with no budget and returns the
state unchanged — while the simulator's `execute_move` decrements the
budget unconditionally on every inclusive move that draws a card, with no
floor at zero. -/
theorem C4_inclusive_budget (g : NineBoxGame) (position : Nat) (choice : MoveType)
    (c1 c2 c3 : Int) (s : GameState) (drawn : Card) (rest : List Card)
    (q : Nat) (target : Card) (mt : MoveType) (rp : Option Nat)
    (hincl : choice.isIncl = true) (hbud : g.inclusive_choices_remaining ≤ 0)
    (hmt : mt.isIncl = true)
    (hdeck : s.remaining_deck = drawn :: rest)
    (hq : s.visible_cards.get? q = some (some target)) :
    process_play g position choice c1 c2 c3 = some g ∧
    (execute_move s (q : Int) mt rp).map (fun r => r.2.inclusive_moves_remaining) =
      some (s.inclusive_moves_remaining - 1) := by
  constructor
  · have hc : (choice.isIncl && !(decide (g.inclusive_choices_remaining > 0))) = true := by
      rw [hincl]
      simp only [Bool.true_and, Bool.not_eq_true', decide_eq_false_iff_not]
      omega
    simp only [process_play]
    rw [if_pos hc]
  · rw [execute_move_normal s drawn rest q target mt rp hdeck hq]
    simp only [hmt, if_true]
    by_cases hs : check_move_success mt drawn target = true
    · simp only [if_pos hs, Option.map_some']
      cases rp with
      | none => rfl
      | some rpos =>
        by_cases he : (is_exact_match drawn target || drawn.isJoker) = true
        · simp only [if_pos he, recover_position_inclusive]
        · simp only [if_neg he]
    · simp only [if_neg hs, Option.map_some']

/-- Witness for C4 at concrete inputs: GUI state with budget 0 rejecting a
`higher_equal` play, and a simulator state with budget 3 ending at 2. -/
theorem C4_inclusive_budget_witness :
    process_play ⟨[some (mkCard 7 "♠")], [mkCard 9 "♥"], [], 0, []⟩ 0 .higherEqual 0 0 0 =
      some ⟨[some (mkCard 7 "♠")], [mkCard 9 "♥"], [], 0, []⟩ ∧
    (execute_move ⟨[some (mkCard 7 "♠")], [mkCard 9 "♥"], [], 3, 5, 0, 0, 0⟩
        ((0 : Nat) : Int) .lowerEqual none).map
      (fun r => r.2.inclusive_moves_remaining) = some 2 := by
  have h := C4_inclusive_budget ⟨[some (mkCard 7 "♠")], [mkCard 9 "♥"], [], 0, []⟩
    0 .higherEqual 0 0 0 ⟨[some (mkCard 7 "♠")], [mkCard 9 "♥"], [], 3, 5, 0, 0, 0⟩
    (mkCard 9 "♥") [] 0 (mkCard 7 "♠") .lowerEqual none rfl le_rfl rfl rfl rfl
  simpa using h

/-- C8 counterexample: a negative position is not rejected — Python list
indexing interprets `-1` as the last slot, so `execute_move` on position
`-1` plays slot 8 and mutates the state instead of failing with
`InvalidPosition` and leaving the state unchanged. -/
theorem C8_counterexample :
    execute_move
        ⟨[some (mkCard 2 "♠"), some (mkCard 3 "♠"), some (mkCard 4 "♠"),
          some (mkCard 5 "♠"), some (mkCard 6 "♠"), some (mkCard 7 "♠"),
          some (mkCard 8 "♠"), some (mkCard 9 "♠"), some (mkCard 10 "♠")],
         [mkCard 14 "♠"], [], 0, 5, 0, 0, 0⟩
        (-1) .higher none =
      some (true,
        ⟨[some (mkCard 2 "♠"), some (mkCard 3 "♠"), some (mkCard 4 "♠"),
          some (mkCard 5 "♠"), some (mkCard 6 "♠"), some (mkCard 7 "♠"),
          some (mkCard 8 "♠"), some (mkCard 9 "♠"), some (mkCard 14 "♠")],
         [], [], 0, 5, 1, 0, 0⟩) := by
  rfl

theorem pyIdx_nonneg (n : Nat) (p : Int) (h1 : 0 ≤ p) (h2 : p < (n : Int)) :
    pyIdx n p = some p.toNat := by
  simp [pyIdx, h1, h2]

theorem pyIdx_neg (n : Nat) (p : Int) (h1 : -(n : Int) ≤ p) (h2 : p < 0) :
    pyIdx n p = some ((p + n).toNat) := by
  simp only [pyIdx, if_neg (not_le.2 h2)]
  rw [if_pos (by omega)]
  congr 1
  omega

/-- C8 (amended): a position at or above 9 yields a failed move with the
state untouched, likewise a valid position whose slot is empty; but a
negative position `-k` with `1 ≤ k ≤ 9` is not rejected — the call behaves
exactly as the call on position `9 - k`. -/
theorem C8_position_validation (s : GameState) (p : Int) (mt : MoveType)
    (rp : Option Nat) :
    (p ≥ (s.visible_cards.length : Int) → execute_move s p mt rp = some (false, s)) ∧
    (∀ q : Nat, (q : Int) = p → s.visible_cards.get? q = some none →
      execute_move s p mt rp = some (false, s)) ∧
    (-(s.visible_cards.length : Int) ≤ p → p < 0 →
      execute_move s p mt rp = execute_move s (p + s.visible_cards.length) mt rp) := by
  refine ⟨?_, ?_, ?_⟩
  · intro hp
    unfold execute_move
    rw [if_pos (by simp [hp])]
  · intro q hqp hq
    subst hqp
    by_cases hde : s.remaining_deck.isEmpty = true
    · unfold execute_move
      rw [if_pos (by simp [hde])]
    · have hlen : q < s.visible_cards.length := get_some_lt_length hq
      have hg : ¬ ((q : Int) ≥ (s.visible_cards.length : Int)) := by
        rw [not_le]
        exact_mod_cast hlen
      unfold execute_move
      rw [if_neg (by simp [hde, hg]), pyIdx_coe _ _ hlen]
      have hq' : s.visible_cards[q]? = some none := by
        rw [← List.get?_eq_getElem?]
        exact hq
      simp [hq']
  · intro h1 h2
    have e1 : pyIdx s.visible_cards.length p =
        some ((p + s.visible_cards.length).toNat) := pyIdx_neg _ _ h1 h2
    have e2 : pyIdx s.visible_cards.length (p + s.visible_cards.length) =
        some ((p + s.visible_cards.length).toNat) := by
      rw [pyIdx_nonneg] <;> omega
    have g1 : decide (p ≥ (s.visible_cards.length : Int)) = false := by
      simp only [decide_eq_false_iff_not, not_le]
      omega
    have g2 : decide (p + s.visible_cards.length ≥ (s.visible_cards.length : Int)) = false := by
      simp only [decide_eq_false_iff_not, not_le]
      omega
    unfold execute_move
    rw [e1, e2, g1, g2]

/-- Witness for C8 at concrete inputs: position 1 on a one-slot state fails
unchanged, position 0 on an emptied slot fails unchanged, and position
`-1` on a one-slot state equals position 0. -/
theorem C8_position_validation_witness :
    execute_move ⟨[some (mkCard 7 "♠")], [mkCard 9 "♥"], [], 3, 5, 0, 0, 0⟩ 1 .higher none =
      some (false, ⟨[some (mkCard 7 "♠")], [mkCard 9 "♥"], [], 3, 5, 0, 0, 0⟩) ∧
    execute_move ⟨[none], [mkCard 9 "♥"], [], 3, 5, 0, 0, 0⟩ 0 .higher none =
      some (false, ⟨[none], [mkCard 9 "♥"], [], 3, 5, 0, 0, 0⟩) ∧
    execute_move ⟨[some (mkCard 7 "♠")], [mkCard 9 "♥"], [], 3, 5, 0, 0, 0⟩ (-1) .higher none =
      execute_move ⟨[some (mkCard 7 "♠")], [mkCard 9 "♥"], [], 3, 5, 0, 0, 0⟩ (-1 + 1) .higher none := by
  refine ⟨?_, ?_, ?_⟩
  · exact (C8_position_validation _ 1 .higher none).1 (by simp)
  · exact (C8_position_validation _ 0 .higher none).2.1 0 rfl rfl
  · exact (C8_position_validation
      ⟨[some (mkCard 7 "♠")], [mkCard 9 "♥"], [], 3, 5, 0, 0, 0⟩ (-1) .higher none).2.2
      (by simp) (by norm_num)

/-- C5 counterexample: on an inclusive play whose target is a joker and
whose drawn card is a plain 5 (not a joker, value different from the
target's stored value), the engine still performs the recovery — the
failed box at position 1 is restored — although the claim allows recovery
only when the drawn card is a joker or matches the target value exactly. -/
theorem C5_counterexample :
    execute_move
        ⟨some jokerCard :: List.replicate 8 none, [mkCard 5 "♠"],
         [(1, mkCard 7 "♥")], 1, 5, 0, 0, 0⟩
        0 .higherEqual (some 1) =
      some (true,
        ⟨some (mkCard 5 "♠") :: some (mkCard 7 "♥") :: List.replicate 7 none,
         [], [], 0, 5, 1, 1, 0⟩) ∧
    (mkCard 5 "♠").isJoker = false ∧
    ¬ (mkCard 5 "♠").value = jokerCard.value := by
  refine ⟨rfl, rfl, by decide⟩

/-- C5 (amended): on a normal-path `execute_move` with a failed box at `r`
passed as the recovery position, `r` leaves `failed_boxes` exactly when the
predicate is inclusive and the drawn card is a joker, or the target card is
a joker, or the values match exactly; and with no recovery position
supplied no failed box is ever removed. -/
theorem C5_recovery (s : GameState) (drawn : Card) (rest : List Card)
    (q : Nat) (target : Card) (r : Nat) (c : Card) (mt : MoveType)
    (hdeck : s.remaining_deck = drawn :: rest)
    (hq : s.visible_cards.get? q = some (some target))
    (hr : dictLookup s.failed_boxes r = some c) :
    ((execute_move s (q : Int) mt (some r)).map
        (fun res => (dictLookup res.2.failed_boxes r).isNone) =
      some (mt.isIncl &&
        (drawn.isJoker || target.isJoker || decide (drawn.value = target.value)))) ∧
    ((execute_move s (q : Int) mt none).map
        (fun res => (dictLookup res.2.failed_boxes r).isSome) = some true) := by
  constructor
  · rw [execute_move_normal s drawn rest q target mt (some r) hdeck hq]
    by_cases hmt : mt.isIncl = true
    · simp only [hmt, if_true, Bool.true_and]
      by_cases he : (drawn.isJoker || target.isJoker || decide (drawn.value = target.value)) = true
      · have hs : check_move_success mt drawn target = true :=
          inclusive_exact_success mt drawn target hmt he
        have he' : (is_exact_match drawn target || drawn.isJoker) = true := by
          rw [exact_or_joker_iff]
          exact he
        simp only [if_pos hs, if_pos he', Option.map_some', he, recover_position, hr]
        simp [dictLookup_pyDictErase_self]
      · rw [Bool.not_eq_true] at he
        rw [he]
        by_cases hs : check_move_success mt drawn target = true
        · have he' : (is_exact_match drawn target || drawn.isJoker) = false := by
            rw [exact_or_joker_iff, he]
          simp only [if_pos hs, he', Option.map_some']
          simp [hr]
        · simp only [if_neg hs, Option.map_some']
          by_cases hqr : q = r
          · subst hqr
            simp [dictLookup_pyDictInsert_self]
          · simp [dictLookup_pyDictInsert_ne _ _ _ _ (fun hc => hqr hc.symm), hr]
    · rw [Bool.not_eq_true] at hmt
      simp only [hmt, Bool.false_and]
      by_cases hs : check_move_success mt drawn target = true
      · simp only [if_pos hs, Option.map_some']
        simp [hmt, hr]
      · simp only [if_neg hs, Option.map_some']
        by_cases hqr : q = r
        · subst hqr
          simp [hmt, dictLookup_pyDictInsert_self]
        · simp [hmt, dictLookup_pyDictInsert_ne _ _ _ _ (fun hc => hqr hc.symm), hr]
  · rw [execute_move_normal s drawn rest q target mt none hdeck hq]
    by_cases hs : check_move_success mt drawn target = true
    · by_cases hmt : mt.isIncl = true
      · simp only [hmt, if_true, if_pos hs, Option.map_some']
        simp [hr]
      · rw [Bool.not_eq_true] at hmt
        simp only [if_pos hs, Option.map_some']
        simp [hmt, hr]
    · simp only [if_neg hs, Option.map_some']
      by_cases hqr : q = r
      · subst hqr
        simp [dictLookup_pyDictInsert_self]
      · by_cases hmt : mt.isIncl = true <;>
          simp [hmt, dictLookup_pyDictInsert_ne _ _ _ _ (fun hc => hqr hc.symm), hr]

/-- Witness for C5 at a concrete input: an inclusive exact-match play with
a failed box at position 1, which is recovered, and the same play without a
recovery position, which removes nothing. -/
theorem C5_recovery_witness :
    ((execute_move ⟨[some (mkCard 7 "♠"), none], [mkCard 7 "♥"],
        [(1, mkCard 2 "♦")], 1, 5, 0, 0, 0⟩ ((0 : Nat) : Int) .higherEqual (some 1)).map
      (fun res => (dictLookup res.2.failed_boxes 1).isNone) = some true) ∧
    ((execute_move ⟨[some (mkCard 7 "♠"), none], [mkCard 7 "♥"],
        [(1, mkCard 2 "♦")], 1, 5, 0, 0, 0⟩ ((0 : Nat) : Int) .higherEqual none).map
      (fun res => (dictLookup res.2.failed_boxes 1).isSome) = some true) := by
  have h := C5_recovery ⟨[some (mkCard 7 "♠"), none], [mkCard 7 "♥"],
    [(1, mkCard 2 "♦")], 1, 5, 0, 0, 0⟩ (mkCard 7 "♥") [] 0 (mkCard 7 "♠") 1
    (mkCard 2 "♦") .higherEqual rfl rfl rfl
  exact ⟨h.1, h.2⟩

/-- C7: card conservation is broken by the custom-selection GUI — the deck
update of `CustomGameGUI.process_play` removes every card whose string
rendering equals the played card's, so playing a joker while two jokers are
in the remaining deck deletes both of them (the deck had 2 jokers, the
resulting deck has 0 instead of 1). -/
theorem C7_card_conservation :
    (([mkCard 5 "♠", jokerCard, jokerCard] : List Card).countP
        (fun c => c.isJoker) = 2) ∧
    (custom_process_play
        ⟨[some (mkCard 10 "♠")], [mkCard 5 "♠", jokerCard, jokerCard], [], 0, []⟩
        0 .higher jokerCard (mkCard 10 "♠") 0 0 0).map
      (fun g => g.remaining_deck.countP (fun c => c.isJoker)) = some 0 := by
  exact ⟨rfl, rfl⟩

/-- Undoing a move whose snapshot recorded the pre-move slot content,
failed boxes, and inclusive count restores the original `NineBoxGame`
exactly, whatever the play did to the slot, the failed boxes, and the
budget. -/
theorem undo_restores (g : NineBoxGame) (position : Nat) (target drawn : Card)
    (rest : List Card) (used : Bool) (c1 c2 c3 : Int)
    (X : Option Card) (F : List (Nat × Card)) (I : Int)
    (hdeck : g.remaining_deck = drawn :: rest)
    (hpos : g.visible_cards.get? position = some (some target))
    (hj : drawn.isJoker = true → drawn = jokerCard) :
    undo_last_move
      ⟨g.visible_cards.set position X, rest,
        g.move_history ++
          [⟨some drawn, position, some target, used, g.failed_boxes,
            g.inclusive_choices_remaining, c1, c2, c3⟩],
        I, F⟩ = some g := by
  have hD : (if drawn.isJoker then jokerCard else drawn) :: rest = g.remaining_deck := by
    by_cases hdj : drawn.isJoker = true
    · rw [if_pos hdj, ← hj hdj, hdeck]
    · rw [if_neg hdj, hdeck]
  simp only [undo_last_move, List.getLast?_concat, List.dropLast_concat]
  rw [List.set_set, list_set_get_self _ _ _ hpos, hD]

/-- C2 counterexample: in the custom-selection GUI the played card may come
from anywhere in the remaining deck, but `undo_last_move` reinserts it at
the front — playing the second card of the deck and undoing yields the deck
in a different order than before the move, so the restored state is not
equal in all fields. -/
theorem C2_counterexample :
    (custom_process_play
        ⟨[some (mkCard 7 "♠")], [mkCard 14 "♠", mkCard 5 "♥"], [], 0, []⟩
        0 .higher (mkCard 5 "♥") (mkCard 7 "♠") 0 0 0).bind undo_last_move =
      some ⟨[some (mkCard 7 "♠")], [mkCard 5 "♥", mkCard 14 "♠"], [], 0, []⟩ ∧
    ¬ ([mkCard 5 "♥", mkCard 14 "♠"] = [mkCard 14 "♠", mkCard 5 "♥"]) := by
  constructor
  · rfl
  · decide

/-- C2 (amended): for the main GUI engine, a `process_play` that actually
executes (non-empty deck, occupied slot, budget available when the choice
is inclusive, canonical joker representation) followed immediately by
`undo_last_move` restores the pre-move state in every field — visible
cards, remaining deck including order, failed boxes, inclusive budget, and
move history — for all outcome classes (success, failure,
joker-auto-success, play on a joker target). -/
theorem C2_undo_roundtrip (g : NineBoxGame) (position : Nat) (choice : MoveType)
    (c1 c2 c3 : Int) (drawn : Card) (rest : List Card) (target : Card)
    (hdeck : g.remaining_deck = drawn :: rest)
    (hpos : g.visible_cards.get? position = some (some target))
    (hbud : choice.isIncl = true → g.inclusive_choices_remaining > 0)
    (hj : drawn.isJoker = true → drawn = jokerCard) :
    (process_play g position choice c1 c2 c3).bind undo_last_move = some g := by
  by_cases hu : choice.isIncl = true
  · have hb := hbud hu
    have hguard : (!(decide (g.inclusive_choices_remaining > 0))) = false := by
      simp [hb]
    simp only [process_play, hu, Bool.true_and, hguard, Bool.false_eq_true,
      if_false, if_true, hdeck, hpos]
    by_cases hdj : drawn.isJoker = true
    · rw [if_pos hdj, Option.some_bind]
      exact undo_restores g position target drawn rest _ c1 c2 c3 _ _ _ hdeck hpos hj
    · rw [if_neg hdj]
      by_cases htj : target.isJoker = true
      · rw [if_pos htj, Option.some_bind]
        exact undo_restores g position target drawn rest _ c1 c2 c3 _ _ _ hdeck hpos hj
      · rw [if_neg htj]
        by_cases hcs : check_play_success drawn target choice = true
        · rw [if_pos hcs, Option.some_bind]
          exact undo_restores g position target drawn rest _ c1 c2 c3 _ _ _ hdeck hpos hj
        · rw [if_neg hcs, Option.some_bind]
          exact undo_restores g position target drawn rest _ c1 c2 c3 _ _ _ hdeck hpos hj
  · rw [Bool.not_eq_true] at hu
    simp only [process_play, hu, Bool.false_and, Bool.false_eq_true, if_false,
      hdeck, hpos]
    by_cases hdj : drawn.isJoker = true
    · rw [if_pos hdj, Option.some_bind]
      exact undo_restores g position target drawn rest _ c1 c2 c3 _ _ _ hdeck hpos hj
    · rw [if_neg hdj]
      by_cases htj : target.isJoker = true
      · rw [if_pos htj, Option.some_bind]
        exact undo_restores g position target drawn rest _ c1 c2 c3 _ _ _ hdeck hpos hj
      · rw [if_neg htj]
        by_cases hcs : check_play_success drawn target choice = true
        · rw [if_pos hcs, Option.some_bind]
          exact undo_restores g position target drawn rest _ c1 c2 c3 _ _ _ hdeck hpos hj
        · rw [if_neg hcs, Option.some_bind]
          exact undo_restores g position target drawn rest _ c1 c2 c3 _ _ _ hdeck hpos hj

/-- Witness for C2 at concrete inputs: a plain `higher` play on a one-slot
game, executed and undone. -/
theorem C2_undo_roundtrip_witness :
    (process_play ⟨[some (mkCard 7 "♠")], [mkCard 9 "♥"], [], 2, []⟩ 0 .higher 0 0 0).bind
      undo_last_move = some ⟨[some (mkCard 7 "♠")], [mkCard 9 "♥"], [], 2, []⟩ :=
  C2_undo_roundtrip ⟨[some (mkCard 7 "♠")], [mkCard 9 "♥"], [], 2, []⟩ 0 .higher 0 0 0
    (mkCard 9 "♥") [] (mkCard 7 "♠") rfl rfl (fun h => nomatch h) (fun h => nomatch h)

theorem le_foldl_max (fb : List (Nat × Card)) (init : Nat) :
    init ≤ fb.foldl (fun m p => max m p.1) init := by
  induction fb generalizing init with
  | nil => exact le_refl _
  | cons hd tl ih => exact le_trans (le_max_left _ _) (ih _)

theorem mem_le_foldl_max (fb : List (Nat × Card)) (p : Nat × Card) (hp : p ∈ fb)
    (init : Nat) : p.1 ≤ fb.foldl (fun m p => max m p.1) init := by
  induction fb generalizing init with
  | nil => cases hp
  | cons hd tl ih =>
    rcases List.mem_cons.1 hp with h | h
    · subst h
      exact le_trans (le_max_right _ _) (le_foldl_max tl _)
    · exact ih h _

theorem mem_le_maxKey (fb : List (Nat × Card)) (k : Nat)
    (hk : k ∈ fb.map Prod.fst) : k ≤ maxKey fb := by
  rw [List.mem_map] at hk
  obtain ⟨p, hp, hpk⟩ := hk
  rw [← hpk]
  exact mem_le_foldl_max fb p hp 0

theorem recovery_sound_plain (gs : GameState) (i : Nat) (probs : Probs)
    (mt : MoveType) (acc : Rat × Option BestCandidate)
    (h : RecoverySound gs acc) :
    RecoverySound gs (plain_step i probs mt acc) := by
  unfold plain_step
  by_cases hc : probs.ofMove mt > acc.1
  · rw [if_pos hc]
    intro pos mt' r heq
    simp at heq
  · rw [if_neg hc]
    exact h

theorem recovery_sound_inclusive (gs : GameState) (i : Nat) (card : Card)
    (probs : Probs) (mt : MoveType) (acc : Rat × Option BestCandidate)
    (hm : mt.isIncl = true)
    (hcard : gs.visible_cards.get? i = some (some card))
    (hpr : calculate_move_probabilities card gs.remaining_deck = some probs)
    (hbud : gs.inclusive_moves_remaining > 0)
    (h : RecoverySound gs acc) :
    RecoverySound gs
      (inclusive_step gs.inclusive_threshold gs.failed_boxes i probs mt acc) := by
  unfold inclusive_step
  by_cases hS : (probs.ofMove mt > acc.1 + gs.inclusive_threshold ∨
      (probs.ofMove mt > acc.1 ∧ probs.exact_match > 20))
  · rw [if_pos hS]
    intro pos mt' r heq
    by_cases hF : (¬ gs.failed_boxes = [] ∧ probs.exact_match > 20)
    · rw [if_pos hF] at heq
      simp only [Option.some.injEq, Prod.mk.injEq] at heq
      obtain ⟨hpos, hmt, hrr⟩ := heq
      exact ⟨hmt ▸ hm, hbud, hF.1, hrr.symm,
        card, probs, hpos ▸ hcard, hpr, hF.2⟩
    · rw [if_neg hF] at heq
      simp at heq
  · rw [if_neg hS]
    exact h

theorem recovery_sound_position (gs : GameState) (acc : Rat × Option BestCandidate)
    (pc : Nat × Option Card)
    (hpc : gs.visible_cards.get? pc.1 = some pc.2)
    (hacc : RecoverySound gs acc) :
    RecoverySound gs (position_step gs acc pc) := by
  obtain ⟨i, oc⟩ := pc
  simp only [position_step]
  cases oc with
  | none => exact hacc
  | some card =>
    cases hpr : calculate_move_probabilities card gs.remaining_deck with
    | none =>
      simp only [hpr]
      exact hacc
    | some probs =>
      simp only [hpr]
      have h1 := recovery_sound_plain gs i probs .higher acc hacc
      have h2 := recovery_sound_plain gs i probs .lower _ h1
      by_cases hbud : gs.inclusive_moves_remaining > 0
      · rw [if_pos hbud]
        exact recovery_sound_inclusive gs i card probs .lowerEqual _ rfl hpc hpr hbud
          (recovery_sound_inclusive gs i card probs .higherEqual _ rfl hpc hpr hbud h2)
      · rw [if_neg hbud]
        exact h2

/-- C9 counterexample: with threshold 5 and budget 1, the state below has
best plain probability 90 (position 0, `lower`), and position 1 offers
`higher_equal` at probability exactly 90 with exact-match probability 30
(above 20).  The claim would adopt that inclusive move (at least as good,
exact-match above 20), but the source compares with strict `>`, so
`find_best_move` returns the plain move and pre-selects no recovery. -/
theorem C9_counterexample :
    find_best_move
        ⟨[some (mkCard 13 "♠"), some (mkCard 5 "♥")],
         [mkCard 14 "♣", mkCard 2 "♥", mkCard 5 "♠", mkCard 5 "♦", mkCard 5 "♣",
          mkCard 6 "♥", mkCard 7 "♥", mkCard 8 "♥", mkCard 9 "♥", mkCard 10 "♥"],
         [(2, mkCard 3 "♦")], 1, 5, 0, 0, 0⟩ =
      some (0, MoveType.lower, none) ∧
    calculate_move_probabilities (mkCard 5 "♥")
        [mkCard 14 "♣", mkCard 2 "♥", mkCard 5 "♠", mkCard 5 "♦", mkCard 5 "♣",
         mkCard 6 "♥", mkCard 7 "♥", mkCard 8 "♥", mkCard 9 "♥", mkCard 10 "♥"] =
      some ⟨60, 10, 90, 40, 30⟩ ∧
    calculate_move_probabilities (mkCard 13 "♠")
        [mkCard 14 "♣", mkCard 2 "♥", mkCard 5 "♠", mkCard 5 "♦", mkCard 5 "♣",
         mkCard 6 "♥", mkCard 7 "♥", mkCard 8 "♥", mkCard 9 "♥", mkCard 10 "♥"] =
      some ⟨10, 90, 10, 90, 0⟩ := by
  have hpB : calculate_move_probabilities (mkCard 5 "♥")
      [mkCard 14 "♣", mkCard 2 "♥", mkCard 5 "♠", mkCard 5 "♦", mkCard 5 "♣",
       mkCard 6 "♥", mkCard 7 "♥", mkCard 8 "♥", mkCard 9 "♥", mkCard 10 "♥"] =
      some ⟨60, 10, 90, 40, 30⟩ := by
    simp [calculate_move_probabilities, mkCard, List.countP, List.countP.go]
    norm_num
  have hpA : calculate_move_probabilities (mkCard 13 "♠")
      [mkCard 14 "♣", mkCard 2 "♥", mkCard 5 "♠", mkCard 5 "♦", mkCard 5 "♣",
       mkCard 6 "♥", mkCard 7 "♥", mkCard 8 "♥", mkCard 9 "♥", mkCard 10 "♥"] =
      some ⟨10, 90, 10, 90, 0⟩ := by
    simp [calculate_move_probabilities, mkCard, List.countP, List.countP.go]
    norm_num
  refine ⟨?_, hpB, hpA⟩
  norm_num [find_best_move, position_step, plain_step, inclusive_step,
    Probs.ofMove, maxKey, hpA, hpB, List.enum, List.enumFrom]

/-- C9 (amended): with a non-negative threshold, an inclusive move whose
probability does not strictly exceed the running best is never adopted
(ties are rejected, contrary to the claim's "at least as good"); and
whenever `find_best_move` returns a move with a pre-selected recovery
position, that move is inclusive, the budget is positive, the failed boxes
are non-empty, the exact-match probability at that position exceeds 20, and
the recovery position is `max(failed_boxes.keys())` — an upper bound for
every failed index. -/
theorem C9_inclusive_adoption (gs : GameState) :
    (∀ (threshold : Rat) (failed : List (Nat × Card)) (pos : Nat) (probs : Probs)
        (mt : MoveType) (acc : Rat × Option BestCandidate),
      0 ≤ threshold → probs.ofMove mt ≤ acc.1 →
      inclusive_step threshold failed pos probs mt acc = acc) ∧
    (∀ pos mt r, find_best_move gs = some (pos, mt, some r) →
      mt.isIncl = true ∧ gs.inclusive_moves_remaining > 0 ∧
      ¬ gs.failed_boxes = [] ∧ r = maxKey gs.failed_boxes ∧
      (∀ k ∈ gs.failed_boxes.map Prod.fst, k ≤ r) ∧
      (∃ card probs, gs.visible_cards.get? pos = some (some card) ∧
        calculate_move_probabilities card gs.remaining_deck = some probs ∧
        probs.exact_match > 20)) := by
  constructor
  · intro threshold failed pos probs mt acc h0 hle
    unfold inclusive_step
    rw [if_neg]
    rintro (h | ⟨h, -⟩)
    · linarith
    · linarith
  · have main : RecoverySound gs
        (gs.visible_cards.enum.foldl (position_step gs) (-1, none)) := by
      apply List.foldlRecOn
      · intro pos mt r h
        cases h
      · intro b hb a ha
        refine recovery_sound_position gs b a ?_ hb
        rw [List.get?_eq_getElem?]
        exact List.mem_enum_iff_getElem?.1 ha
    intro pos mt r heq
    unfold find_best_move at heq
    obtain ⟨h1, h2, h3, h4, h5⟩ := main pos mt r heq
    refine ⟨h1, h2, h3, h4, ?_, h5⟩
    intro k hk
    rw [h4]
    exact mem_le_maxKey _ _ hk

/-- Witness for C9 at concrete inputs: a rejected tie, and a state where
`find_best_move` adopts `higher_equal` with recovery position 3 (the only,
hence highest, failed index). -/
theorem C9_inclusive_adoption_witness :
    inclusive_step 5 [] 0 ⟨60, 10, 90, 40, 30⟩ .higherEqual (90, some (1, .lower, none)) =
      (90, some (1, .lower, none)) ∧
    (MoveType.higherEqual.isIncl = true ∧ (1 : Int) > 0 ∧
      ¬ ([(3, mkCard 2 "♥")] : List (Nat × Card)) = [] ∧
      3 = maxKey [(3, mkCard 2 "♥")] ∧
      (∀ k ∈ ([(3, mkCard 2 "♥")] : List (Nat × Card)).map Prod.fst, k ≤ 3) ∧
      (∃ card probs,
        ([some (mkCard 7 "♠")] : List (Option Card)).get? 0 = some (some card) ∧
        calculate_move_probabilities card
          [mkCard 7 "♥", mkCard 7 "♦", mkCard 7 "♣"] = some probs ∧
        probs.exact_match > 20)) := by
  constructor
  · exact (C9_inclusive_adoption
      ⟨[], [], [], 0, 0, 0, 0, 0⟩).1 5 [] 0 ⟨60, 10, 90, 40, 30⟩ .higherEqual
      (90, some (1, .lower, none)) (by norm_num) (by norm_num [Probs.ofMove])
  · have hp : calculate_move_probabilities (mkCard 7 "♠")
        [mkCard 7 "♥", mkCard 7 "♦", mkCard 7 "♣"] =
        some ⟨0, 0, 100, 100, 100⟩ := by
      simp [calculate_move_probabilities, mkCard, List.countP, List.countP.go]
    have hfind : find_best_move
        ⟨[some (mkCard 7 "♠")], [mkCard 7 "♥", mkCard 7 "♦", mkCard 7 "♣"],
         [(3, mkCard 2 "♥")], 1, 5, 0, 0, 0⟩ =
        some (0, MoveType.higherEqual, some 3) := by
      norm_num [find_best_move, position_step, plain_step, inclusive_step,
        Probs.ofMove, maxKey, hp, List.enum, List.enumFrom]
    exact (C9_inclusive_adoption
      ⟨[some (mkCard 7 "♠")], [mkCard 7 "♥", mkCard 7 "♦", mkCard 7 "♣"],
       [(3, mkCard 2 "♥")], 1, 5, 0, 0, 0⟩).2 0 .higherEqual 3 hfind

theorem run_optimization_eq (trial : Nat × Nat × Rat → Nat → Bool × Nat)
    (sim_count : Nat) (combos : List (Nat × Nat × Rat)) :
    run_optimization trial sim_count combos =
      combos.foldl (opt_step trial sim_count) initOptimizationResults := rfl

theorem add_result_results (o : OptimizationResults) (j m : Nat) (t : Rat)
    (res : SimulationResults) :
    (add_result o j m t res).results = pyDictInsert o.results (j, m, t) res := by
  simp only [add_result]
  split <;> rfl

theorem add_result_best (o : OptimizationResults) (j m : Nat) (t : Rat)
    (res : SimulationResults) :
    (add_result o j m t res).best_win_rate = max o.best_win_rate (winRate res) := by
  simp only [add_result]
  split
  next h => exact (max_eq_right (le_of_lt h)).symm
  next h => exact (max_eq_left (not_lt.1 h)).symm

theorem pyDictInsert_fresh {κ α : Type} [DecidableEq κ]
    (d : List (κ × α)) (k : κ) (v : α) (h : ∀ e ∈ d, ¬ e.1 = k) :
    pyDictInsert d k v = d ++ [(k, v)] := by
  unfold pyDictInsert
  rw [if_neg]
  simp only [List.any_eq_true, decide_eq_true_eq, not_exists]
  intro e he
  exact h e he.1 he.2

theorem winRate_nonneg (r : SimulationResults) : 0 ≤ winRate r := by
  unfold winRate
  positivity

theorem run_one_cell_spec (trial : Nat → Bool × Nat) (n : Nat) :
    (run_one_cell trial n).total_games = n ∧
    (run_one_cell trial n).wins + (run_one_cell trial n).losses = n := by
  refine ⟨rfl, ?_⟩
  have hle : ((List.range n).map trial).countP (fun t => t.1) ≤ n := by
    have := List.countP_le_length (l := (List.range n).map trial) (p := fun t => t.1)
    simpa using this
  simp only [run_one_cell]
  omega

theorem run_opt_aux (trial : Nat × Nat × Rat → Nat → Bool × Nat) (sim_count : Nat) :
    ∀ (combos : List (Nat × Nat × Rat)) (o : OptimizationResults),
      combos.Nodup →
      (∀ c ∈ combos, ∀ e ∈ o.results, ¬ e.1 = c) →
      (∀ e ∈ o.results, winRate e.2 ≤ o.best_win_rate) →
      (o.results = [] → o.best_win_rate = 0) →
      (¬ o.results = [] → ∃ e ∈ o.results, winRate e.2 = o.best_win_rate) →
      (∀ kk, (∀ c ∈ combos, ¬ c = kk) →
        dictLookup (combos.foldl (opt_step trial sim_count) o).results kk =
          dictLookup o.results kk) ∧
      (∀ c ∈ combos, c.2.1 > 43 + c.1 →
        dictLookup (combos.foldl (opt_step trial sim_count) o).results c =
          dictLookup o.results c) ∧
      (∀ c ∈ combos, ¬ c.2.1 > 43 + c.1 →
        dictLookup (combos.foldl (opt_step trial sim_count) o).results c =
          some (run_one_cell (trial c) sim_count)) ∧
      (∀ e ∈ (combos.foldl (opt_step trial sim_count) o).results,
        winRate e.2 ≤ (combos.foldl (opt_step trial sim_count) o).best_win_rate) ∧
      ((combos.foldl (opt_step trial sim_count) o).results = [] →
        (combos.foldl (opt_step trial sim_count) o).best_win_rate = 0) ∧
      (¬ (combos.foldl (opt_step trial sim_count) o).results = [] →
        ∃ e ∈ (combos.foldl (opt_step trial sim_count) o).results,
          winRate e.2 = (combos.foldl (opt_step trial sim_count) o).best_win_rate) := by
  intro combos
  induction combos with
  | nil =>
    intro o _ _ hub hemp hwit
    exact ⟨fun kk _ => rfl, by simp, by simp, hub, hemp, hwit⟩
  | cons c cs ih =>
    intro o hnd hdisj hub hemp hwit
    have hcns : c ∉ cs := (List.nodup_cons.1 hnd).1
    have hnd' : cs.Nodup := (List.nodup_cons.1 hnd).2
    rw [List.foldl_cons]
    by_cases hskip : c.2.1 > 43 + c.1
    · have ho' : opt_step trial sim_count o c = o := by
        unfold opt_step
        rw [if_pos hskip]
      rw [ho']
      obtain ⟨S, H1, H2, H3, H4, H5⟩ := ih o hnd'
        (fun c' hc' => hdisj c' (List.mem_cons_of_mem _ hc')) hub hemp hwit
      refine ⟨?_, ?_, ?_, H3, H4, H5⟩
      · intro kk hkk
        exact S kk (fun c' hc' => hkk c' (List.mem_cons_of_mem _ hc'))
      · intro c' hc' hc's
        rcases List.mem_cons.1 hc' with h | h
        · subst h
          exact S c' (fun c'' hc'' hne => hcns (hne ▸ hc''))
        · exact H1 c' h hc's
      · intro c' hc' hc'r
        rcases List.mem_cons.1 hc' with h | h
        · subst h
          exact absurd hskip hc'r
        · exact H2 c' h hc'r
    · have hfresh : ∀ e ∈ o.results, ¬ e.1 = c :=
        fun e he => hdisj c (List.mem_cons_self _ _) e he
      have hres : (opt_step trial sim_count o c).results =
          o.results ++ [(c, run_one_cell (trial c) sim_count)] := by
        unfold opt_step
        rw [if_neg hskip]
        have : ((c.1, c.2.1, c.2.2) : Nat × Nat × Rat) = c := rfl
        rw [add_result_results, this, pyDictInsert_fresh _ _ _ hfresh]
      have hbest : (opt_step trial sim_count o c).best_win_rate =
          max o.best_win_rate (winRate (run_one_cell (trial c) sim_count)) := by
        unfold opt_step
        rw [if_neg hskip, add_result_best]
      obtain ⟨S, H1, H2, H3, H4, H5⟩ := ih (opt_step trial sim_count o c) hnd'
        (by
          intro c' hc' e he
          rw [hres] at he
          rcases List.mem_append.1 he with h | h
          · exact hdisj c' (List.mem_cons_of_mem _ hc') e h
          · simp only [List.mem_singleton] at h
            subst h
            intro hc
            have hcc : c = c' := hc
            exact hcns (by rw [hcc]; exact hc'))
        (by
          intro e he
          rw [hres] at he
          rw [hbest]
          rcases List.mem_append.1 he with h | h
          · exact le_trans (hub e h) (le_max_left _ _)
          · simp only [List.mem_singleton] at h
            subst h
            exact le_max_right _ _)
        (by
          intro h
          rw [hres] at h
          simp at h)
        (by
          intro _
          rcases le_or_lt (winRate (run_one_cell (trial c) sim_count)) o.best_win_rate
            with hle | hlt
          · by_cases ho : o.results = []
            · refine ⟨(c, run_one_cell (trial c) sim_count), ?_, ?_⟩
              · rw [hres, ho]
                simp
              · rw [hbest, hemp ho]
                have h0 := winRate_nonneg (run_one_cell (trial c) sim_count)
                have : winRate (run_one_cell (trial c) sim_count) = 0 := by
                  rw [hemp ho] at hle
                  linarith
                rw [this]
                simp
            · obtain ⟨e, he, hrate⟩ := hwit ho
              refine ⟨e, ?_, ?_⟩
              · rw [hres]
                exact List.mem_append_left _ he
              · rw [hbest, hrate, max_eq_left hle]
          · refine ⟨(c, run_one_cell (trial c) sim_count), ?_, ?_⟩
            · rw [hres]
              simp
            · rw [hbest, max_eq_right (le_of_lt hlt)])
      refine ⟨?_, ?_, ?_, H3, H4, H5⟩
      · intro kk hkk
        rw [S kk (fun c' hc' => hkk c' (List.mem_cons_of_mem _ hc')), hres,
          dictLookup_append_single_ne _ _ _ _
            (fun h => hkk c (List.mem_cons_self _ _) h.symm)]
      · intro c' hc' hc's
        rcases List.mem_cons.1 hc' with h | h
        · subst h
          exact absurd hc's hskip
        · rw [H1 c' h hc's, hres,
            dictLookup_append_single_ne _ _ _ _
              (fun hcc => hcns (by rw [← hcc]; exact h))]
      · intro c' hc' hc'r
        rcases List.mem_cons.1 hc' with h | h
        · subst h
          rw [S c' (fun c'' hc'' hne => hcns (hne ▸ hc'')), hres,
            dictLookup_append_single _ _ _ hfresh]
        · exact H2 c' h hc'r

/-- C10: in the optimizer grid, every combination with
`moves > 43 + jokers` is skipped (nothing recorded for it); every other
combination is run for exactly `sim_count` trials and recorded under its
triple with `wins + losses = sim_count`; and the running best win rate is
an upper bound of all recorded win rates and is attained by some recorded
cell (0 when nothing was recorded).  The per-game random outcomes are
abstracted by the oracle `trial`; combinations are pairwise distinct as
produced by `itertools.product`. -/
theorem C10_grid_search (trial : Nat × Nat × Rat → Nat → Bool × Nat)
    (sim_count : Nat) (combos : List (Nat × Nat × Rat)) (hnd : combos.Nodup) :
    (∀ c ∈ combos, c.2.1 > 43 + c.1 →
      dictLookup (run_optimization trial sim_count combos).results c = none) ∧
    (∀ c ∈ combos, ¬ c.2.1 > 43 + c.1 →
      ∃ res, dictLookup (run_optimization trial sim_count combos).results c = some res ∧
        res.total_games = sim_count ∧ res.wins + res.losses = sim_count) ∧
    (∀ e ∈ (run_optimization trial sim_count combos).results,
      winRate e.2 ≤ (run_optimization trial sim_count combos).best_win_rate) ∧
    ((run_optimization trial sim_count combos).results = [] →
      (run_optimization trial sim_count combos).best_win_rate = 0) ∧
    (¬ (run_optimization trial sim_count combos).results = [] →
      ∃ e ∈ (run_optimization trial sim_count combos).results,
        winRate e.2 = (run_optimization trial sim_count combos).best_win_rate) := by
  obtain ⟨S, H1, H2, H3, H4, H5⟩ := run_opt_aux trial sim_count combos
    initOptimizationResults hnd (by intro c _ e he; cases he)
    (by intro e he; cases he) (fun _ => rfl)
    (fun h => absurd rfl h)
  rw [run_optimization_eq]
  refine ⟨?_, ?_, H3, H4, H5⟩
  · intro c hc hcs
    rw [H1 c hc hcs]
    rfl
  · intro c hc hcr
    exact ⟨run_one_cell (trial c) sim_count, H2 c hc hcr,
      (run_one_cell_spec (trial c) sim_count).1,
      (run_one_cell_spec (trial c) sim_count).2⟩

/-- Witness for C10 at concrete inputs: a single-cell grid
(0 jokers, 2 inclusive moves, threshold 5) with 3 trials per cell, under an
oracle winning the even-numbered trials. -/
theorem C10_grid_search_witness :
    ∃ res,
      dictLookup (run_optimization (fun _ n => (decide (n % 2 = 0), 0)) 3
          [(0, 2, 5)]).results (0, 2, 5) = some res ∧
      res.total_games = 3 ∧ res.wins + res.losses = 3 :=
  (C10_grid_search (fun _ n => (decide (n % 2 = 0), 0)) 3 [(0, 2, 5)]
    (by simp)).2.1 (0, 2, 5) (by simp) (by norm_num)

/-- C6: `has_won` holds exactly when the remaining deck is empty and some
slot is still occupied; `is_game_over` holds exactly when the deck is empty
or every slot is empty; with an empty deck and all slots empty the game is
over but not won. -/
theorem C6_game_end (s : GameState) :
    (has_won s = true ↔ s.remaining_deck = [] ∧ ∃ c ∈ s.visible_cards, c.isSome = true) ∧
    (is_game_over s = true ↔ (∀ c ∈ s.visible_cards, c = none) ∨ s.remaining_deck = []) ∧
    (s.remaining_deck = [] → (∀ c ∈ s.visible_cards, c = none) →
      is_game_over s = true ∧ has_won s = false) := by
  refine ⟨?_, ?_, ?_⟩
  · simp [has_won, List.isEmpty_iff, List.any_eq_true]
  · simp [is_game_over, List.isEmpty_iff, List.all_eq_true, Option.isNone_iff_eq_none]
  · intro hdeck hall
    constructor
    · simp [is_game_over, List.isEmpty_iff, hdeck]
    · simp only [has_won, Bool.and_eq_false_iff]
      right
      simp only [List.any_eq_false]
      intro c hc
      simp [hall c hc]

/-- Witness for C6 at a concrete state: empty deck, nine empty slots. -/
theorem C6_game_end_witness :
    is_game_over ⟨List.replicate 9 none, [], [], 5, 5, 0, 0, 0⟩ = true ∧
    has_won ⟨List.replicate 9 none, [], [], 5, 5, 0, 0, 0⟩ = false :=
  (C6_game_end _).2.2 rfl (by simp)

/-- C1 counterexample: on the deck consisting of one joker and the
non-joker target 7 of spades, the simulator reports 100 percent for
`higher` while the GUI engine reports 50 percent, so the two probability
functions do not agree on every (target, deck) input. -/
theorem C1_counterexample :
    (calculate_move_probabilities (mkCard 7 "♠") [jokerCard]).map Probs.higher =
      some 100 ∧
    (gui_card_probs (mkCard 7 "♠") [jokerCard]).map GuiProbs.higher = some 50 := by
  constructor
  · simp [calculate_move_probabilities, jokerCard, mkCard]
  · simp only [gui_card_probs, jokerCard, mkCard]
    norm_num

/-- C1 (amended): the simulator returns 100 percent for all five entries on
a joker target, and the GUI per-card computation agrees with the simulator
on the four directional percentages whenever the remaining deck contains no
joker (non-joker target, non-empty deck); with jokers present the two
engines use different denominators and disagree. -/
theorem C1_probability_engines :
    (∀ (t : Card) (d : List Card), t.isJoker = true → d ≠ [] →
        calculate_move_probabilities t d = some ⟨100, 100, 100, 100, 100⟩) ∧
    (∀ (t : Card) (d : List Card), t.isJoker = false → d ≠ [] →
        (∀ c ∈ d, c.isJoker = false) →
        (calculate_move_probabilities t d).map Probs.higher =
          (gui_card_probs t d).map GuiProbs.higher ∧
        (calculate_move_probabilities t d).map Probs.lower =
          (gui_card_probs t d).map GuiProbs.lower ∧
        (calculate_move_probabilities t d).map Probs.higher_equal =
          (gui_card_probs t d).map GuiProbs.higher_equal ∧
        (calculate_move_probabilities t d).map Probs.lower_equal =
          (gui_card_probs t d).map GuiProbs.lower_equal) := by
  constructor
  · intro t d ht hd
    simp [calculate_move_probabilities, List.isEmpty_iff, hd, ht]
  · intro t d ht hd hnoj
    have hjc : d.countP (fun c => c.isJoker) = 0 := by
      rw [List.countP_eq_zero]
      intro c hc
      simp [hnoj c hc]
    have hfil : d.filter (fun c => !c.isJoker) = d := by
      rw [List.filter_eq_self]
      intro c hc
      simp [hnoj c hc]
    have hhi : d.countP (fun c => c.isJoker || (!c.isJoker && decide (c.value > t.value)))
        = d.countP (fun c => decide (c.value > t.value)) := by
      apply List.countP_congr
      intro c hc
      simp [hnoj c hc]
    have hlo : d.countP (fun c => c.isJoker || (!c.isJoker && decide (c.value < t.value)))
        = d.countP (fun c => decide (c.value < t.value)) := by
      apply List.countP_congr
      intro c hc
      simp [hnoj c hc]
    have heq : d.countP (fun c => !c.isJoker && decide (c.value = t.value))
        = d.countP (fun c => decide (c.value = t.value)) := by
      apply List.countP_congr
      intro c hc
      simp [hnoj c hc]
    have hlen : d.length ≠ 0 := by
      simpa [List.length_eq_zero] using hd
    simp only [calculate_move_probabilities, gui_card_probs, List.isEmpty_iff,
      hd, if_false, ht, Bool.false_eq_true, hjc, hfil, hhi, hlo, heq, hlen,
      if_neg, Nat.cast_zero, add_zero, Option.map_some']
    exact ⟨trivial, trivial, trivial, trivial⟩

/-- Witness for C1 at concrete inputs: a joker target over a one-card deck,
and a joker-free one-card deck where the two engines agree on `higher`. -/
theorem C1_probability_engines_witness :
    calculate_move_probabilities jokerCard [mkCard 5 "♠"] =
      some ⟨100, 100, 100, 100, 100⟩ ∧
    (calculate_move_probabilities (mkCard 7 "♠") [mkCard 9 "♥"]).map Probs.higher =
      (gui_card_probs (mkCard 7 "♠") [mkCard 9 "♥"]).map GuiProbs.higher := by
  constructor
  · exact C1_probability_engines.1 jokerCard [mkCard 5 "♠"] rfl (by simp)
  · exact (C1_probability_engines.2 (mkCard 7 "♠") [mkCard 9 "♥"] rfl (by simp)
      (by intro c hc; simp only [List.mem_singleton] at hc; subst hc; rfl)).1

/-- C3: the simulator engine resolves any move as successful when the drawn
or the target card is a joker, but the custom-selection GUI of
`BTBGameAid.py` classifies through `compare_cards` alone: a drawn joker
compares as `equal`, so a plain `higher` prediction with a drawn joker is
scored wrong there, and a play on a joker target compares through the
stored value 0, so `lower` (and `lower_equal`) on a joker target is scored
wrong as well — contradicting the game rules stated in the sources. -/
theorem C3_joker_always_successful :
    (∀ mt : MoveType, check_move_success mt jokerCard (mkCard 7 "♠") = true) ∧
    (∀ mt : MoveType, check_move_success mt (mkCard 7 "♠") jokerCard = true) ∧
    custom_is_correct .higher (compare_cards jokerCard (mkCard 7 "♠")) = false ∧
    custom_is_correct .lower (compare_cards (mkCard 9 "♠") jokerCard) = false ∧
    custom_is_correct .lowerEqual (compare_cards (mkCard 9 "♠") jokerCard) = false := by
  refine ⟨?_, ?_, rfl, rfl, rfl⟩
  · intro mt
    rfl
  · intro mt
    rfl
